import Mathlib

/-!
Shallow embedding of the face-grouping and measurement engine of the
3D-CAD-analysis repository.  The repository contains two variants of the
`Model` component:

* namespace `Model0` embeds the older variant (src/unnamed/part_000):
  `calculateEdges`, `analyzeCircularity`, `detectShape`, its `isRectangular`
  and its projected-fan `calculateArea`;
* namespace `Model1` embeds the pipeline variant (src/unnamed/part_001):
  `findConnectedFaces`, `getUniqueVertices`, `findEdges`,
  `calculateMeasurements`, `calculateArea`, `determineShapeType`,
  `isRectangular`, `isCircular` and the `handleClick` state transition.

JavaScript numbers are modelled as real numbers: `Math.sqrt`, `Math.acos`
and `Math.PI` become `Real.sqrt`, `Real.arccos` and `Real.pi`.
`Math.max(...lengths)` and `Math.min(...lengths)` return `-Infinity` and
`Infinity` on an empty spread, so those two fields live in `EReal`.
String position keys compare equal exactly when the coordinates do, so key
maps and key sets are modelled directly by coordinate equality.
-/

open scoped Classical

noncomputable section

/-- three.js `Vector3`: a 3D point with real coordinates. -/
@[ext]
structure Point where
  x : ℝ
  y : ℝ
  z : ℝ

namespace Point

/-- Embedding of `new THREE.Vector3()` — the zero vector. -/
def zero : Point := ⟨0, 0, 0⟩

/-- Embeds `Vector3.add` (componentwise, used by the centroid accumulation loops). -/
def add (p q : Point) : Point := ⟨p.x + q.x, p.y + q.y, p.z + q.z⟩

/-- Embeds `Vector3.subVectors(a, b)` = `a - b`. -/
def sub (p q : Point) : Point := ⟨p.x - q.x, p.y - q.y, p.z - q.z⟩

/-- Embeds `Vector3.multiplyScalar` (in-place in three.js; value-level here). -/
def multiplyScalar (p : Point) (s : ℝ) : Point := ⟨p.x * s, p.y * s, p.z * s⟩

/-- Embeds `Vector3.divideScalar`. -/
def divideScalar (p : Point) (s : ℝ) : Point := ⟨p.x / s, p.y / s, p.z / s⟩

/-- Embeds `Vector3.dot`. -/
def dot (p q : Point) : ℝ := p.x * q.x + p.y * q.y + p.z * q.z

/-- Embeds `Vector3.crossVectors` / `Vector3.cross`. -/
def cross (p q : Point) : Point :=
  ⟨p.y * q.z - p.z * q.y, p.z * q.x - p.x * q.z, p.x * q.y - p.y * q.x⟩

/-- Embeds `Vector3.lengthSq` = `x*x + y*y + z*z`. -/
def lengthSq (p : Point) : ℝ := p.x * p.x + p.y * p.y + p.z * p.z

/-- Embeds `Vector3.length` = `Math.sqrt(lengthSq)`. -/
def length (p : Point) : ℝ := Real.sqrt p.lengthSq

/-- Embeds `Vector3.distanceTo`. -/
def distanceTo (p q : Point) : ℝ := (p.sub q).length

/-- Embeds `Vector3.normalize()` is `divideScalar(length() || 1)`: a zero-length
vector is divided by 1 and hence left unchanged (no NaN is produced). -/
def normalize (p : Point) : Point :=
  p.divideScalar (if p.length = 0 then 1 else p.length)

/-- Embeds `MathUtils.clamp(value, min, max)` = `Math.max(min, Math.min(max, value))`. -/
def clamp (v lo hi : ℝ) : ℝ := max lo (min hi v)

/-- Embeds `Vector3.angleTo`: `acos(clamp(dot / sqrt(lengthSq * lengthSq), -1, 1))`,
returning `π/2` when the denominator is zero. -/
def angleTo (p q : Point) : ℝ :=
  if Real.sqrt (p.lengthSq * q.lengthSq) = 0 then Real.pi / 2
  else Real.arccos (clamp (p.dot q / Real.sqrt (p.lengthSq * q.lengthSq)) (-1) 1)

end Point

/-- Strict lexicographic coordinate order: the edge-key sort comparator
`a.x !== b.x ? a.x - b.x : a.y !== b.y ? a.y - b.y : a.z - b.z` is positive
on `(q, p)` exactly when `lexLt p q`. -/
def lexLt (p q : Point) : Prop :=
  p.x < q.x ∨ (p.x = q.x ∧ (p.y < q.y ∨ (p.y = q.y ∧ p.z < q.z)))

/-- Embedding of `[v1, v2].sort(comparator)` for the edge key: the two vertices are
swapped exactly when the comparator is positive, i.e. when `q` precedes `p`. -/
def sortPair (p q : Point) : Point × Point := if lexLt q p then (q, p) else (p, q)

/-- Iteration order of the double loop `for i ...; for j = i + 1 ...` over a
vertex array: all pairs `(v i, v j)` with `i < j`, in loop order. -/
def pairsInOrder : List Point → List (Point × Point)
  | [] => []
  | v :: rest => (rest.map fun w => (v, w)) ++ pairsInOrder rest

/-- The `edges` key-set deduplication shared by `findEdges` (part_001) and
`calculateEdges` (part_000): a pair is kept exactly when its sorted key
string has not been seen before, and keys equal iff coordinates equal. -/
def dedupPairs : List (Point × Point) → List (Point × Point) → List (Point × Point)
  | [], _ => []
  | e :: rest, seen =>
    if sortPair e.1 e.2 ∈ seen then dedupPairs rest seen
    else e :: dedupPairs rest (sortPair e.1 e.2 :: seen)

/-- Centroid computation shared verbatim by `analyzeCircularity` (part_000)
and `isCircular` (part_001): `center.add(v)` over all vertices, then
`center.divideScalar(vertices.length)`. -/
def circCenter (vs : List Point) : Point :=
  (vs.foldl Point.add Point.zero).divideScalar vs.length

/-- Embeds `distances = vertices.map(v => v.distanceTo(center))`. -/
def circDistances (vs : List Point) : List ℝ :=
  vs.map fun v => v.distanceTo (circCenter vs)

/-- Embeds `avgRadius = distances.reduce((a, b) => a + b, 0) / distances.length`. -/
def circAvg (vs : List Point) : ℝ :=
  (circDistances vs).foldl (· + ·) 0 / (circDistances vs).length

/-- Embeds `variance = distances.reduce((acc, d) => acc + (d - avgRadius)^2, 0) / distances.length`. -/
def circVariance (vs : List Point) : ℝ :=
  ((circDistances vs).foldl (fun acc d => acc + (d - circAvg vs) ^ 2) 0) /
    (circDistances vs).length

/-- Shape classification.  `triangle` appears in part_000's `ShapeType` union
but is never produced by either variant. -/
inductive ShapeType where
  | circle
  | rectangle
  | triangle
  | complex
deriving DecidableEq

/-- Uniform scaling of a vertex position by a factor `k`, as in the spec's
scale scenario ("uniformly scaling all vertex positions by factor k"). -/
def scalePt (k : ℝ) (p : Point) : Point := ⟨k * p.x, k * p.y, k * p.z⟩

namespace Model1

/-- Embeds `EDGE_COLORS` (part_001 lines 27-36): the fixed 8-color display palette. -/
def EDGE_COLORS : List String :=
  ["#FF3B30", "#34C759", "#007AFF", "#FF9500", "#5856D6", "#FF2D55", "#5AC8FA", "#FFCC00"]

/-- Embeds `NORMAL_THRESHOLD` (part_001 line 40). -/
def NORMAL_THRESHOLD : ℝ := 0.95

/-- Embeds `findEdges` (part_001 lines 170-197): every pair of distinct indices of
the vertex array becomes one candidate edge, deduplicated by sorted key. -/
def findEdges (vertices : List Point) : List (Point × Point) :=
  dedupPairs (pairsInOrder vertices) []

/-- First-occurrence deduplication through a JS `Map` keyed by coordinates:
`Map.set` keeps the insertion position of an existing key, and the
re-inserted value is the coordinate-equal vertex, so the value list is the
input with later duplicates dropped. -/
def dedupFirst : List Point → List Point → List Point
  | [], _ => []
  | v :: rest, seen =>
    if v ∈ seen then dedupFirst rest seen else v :: dedupFirst rest (v :: seen)

/-- Read of vertex `i` of the position attribute (an out-of-range read is
modelled as the zero vector; all in-pipeline reads are in range). -/
def vert (pos : List Point) (i : ℕ) : Point := pos.getD i Point.zero

/-- The three corners of face `i` (vertices `3i`, `3i+1`, `3i+2`). -/
def faceVertList (pos : List Point) (i : ℕ) : List Point :=
  [vert pos (i * 3), vert pos (i * 3 + 1), vert pos (i * 3 + 2)]

/-- Embeds `getUniqueVertices` (part_001 lines 152-168). -/
def getUniqueVertices (pos : List Point) (faceIndices : List ℕ) : List Point :=
  dedupFirst (faceIndices.flatMap (faceVertList pos)) []

/-- Embeds `numFaces = position.count / 3`. -/
def numFaces (pos : List Point) : ℕ := pos.length / 3

/-- The unnormalized face normal `cross(v1 - v0, v2 - v0)` of face `i`. -/
def faceCross (pos : List Point) (i : ℕ) : Point :=
  Point.cross ((vert pos (i * 3 + 1)).sub (vert pos (i * 3)))
    ((vert pos (i * 3 + 2)).sub (vert pos (i * 3)))

/-- Embeds `crossVectors(v1, v2).normalize()` — the face normal used by
`findConnectedFaces` for the start face and for every candidate face. -/
def faceNormal (pos : List Point) (i : ℕ) : Point := (faceCross pos i).normalize

/-- Embeds `vertexToFaces.get(key)`: the map is built by pushing face `i` once per
corner, for `i = 0 .. numFaces - 1`, so the list for a vertex `v` holds every
face index whose corner equals `v`, in ascending face order, once per
matching corner. -/
def vertexFaces (pos : List Point) (v : Point) : List ℕ :=
  (List.range (numFaces pos)).flatMap fun i =>
    (faceVertList pos i).filterMap fun w => if w = v then some i else none

/-- JS `Set.add`: append when absent (iteration is in insertion order). -/
def addSet (i : ℕ) (s : List ℕ) : List ℕ := if i ∈ s then s else s ++ [i]

/-- Body of the `adjacentFaces.forEach` callback of `findConnectedFaces`:
state is `(connectedFaces, facesToProcess)`; `processed` already contains the
current face. -/
def growStep (pos : List Point) (startNormal : Point) (processed : List ℕ)
    (st : List ℕ × List ℕ) (adjacentFace : ℕ) : List ℕ × List ℕ :=
  if adjacentFace ∈ processed then st
  else if (faceNormal pos adjacentFace).dot startNormal > NORMAL_THRESHOLD then
    (addSet adjacentFace st.1, adjacentFace :: st.2)
  else st

/-- The `while (facesToProcess.length > 0)` loop of `findConnectedFaces`.
`facesToProcess` is a stack (JS `push`/`pop` on the array end), modelled with
the head as the top.  Fuel bounds the number of loop iterations; see
`findConnectedFaces` for why the chosen fuel never runs out. -/
def growLoop (pos : List Point) (startNormal : Point) :
    ℕ → List ℕ → List ℕ → List ℕ → List ℕ
  | 0, _, _, connected => connected
  | _ + 1, [], _, connected => connected
  | fuel + 1, current :: stack, processed, connected =>
    if current ∈ processed then growLoop pos startNormal fuel stack processed connected
    else
      let processed1 := current :: processed
      let candidates := (faceVertList pos current).flatMap (vertexFaces pos)
      let st := candidates.foldl (growStep pos startNormal processed1) (connected, stack)
      growLoop pos startNormal fuel st.2 processed1 st.1

/-- Embeds `findConnectedFaces` (part_001 lines 72-150).  Each face is processed at
most once; a processed face examines `3` corners with at most `3·numFaces`
adjacency entries each, so pushes number at most `(numFaces + 1) · 9 ·
numFaces + 1` and loop iterations (pops) at most one more — the fuel
`9·n² + 9·n + 2` therefore exceeds the iteration count and the loop always
drains exactly as the JS `while` does. -/
def findConnectedFaces (pos : List Point) (startFaceIndex : ℕ) : List ℕ :=
  growLoop pos (faceNormal pos startFaceIndex)
    (9 * numFaces pos * numFaces pos + 9 * numFaces pos + 2)
    [startFaceIndex] [] [startFaceIndex]

/-- three.js `Triangle.getArea()`: `((c - b) × (a - b)).length() / 2`. -/
def getArea (a b c : Point) : ℝ := ((c.sub b).cross (a.sub b)).length / 2

/-- The fan loop `for (i = 2; i < n; i++) totalArea += new Triangle(v0,
v[i-1], v[i]).getArea()`, expressed over the tail `[v1, v2, ...]`. -/
def fanSum (v0 : Point) : List Point → ℝ
  | a :: b :: rest => getArea v0 a b + fanSum v0 (b :: rest)
  | _ => 0

/-- Embeds `calculateArea` (part_001 lines 298-314): 0 for fewer than 3 vertices,
otherwise the fan triangulation from vertex 0.  (The local `normal` computed
on lines 302-305 is never used and has no effect.) -/
def calculateArea (vertices : List Point) : ℝ :=
  if vertices.length < 3 then 0
  else
    match vertices with
    | v0 :: rest => fanSum v0 rest
    | [] => 0

/-- Embeds `Math.max(...lengths)`: `-Infinity` on an empty spread. -/
def jsMax (l : List ℝ) : EReal := l.foldl (fun acc (v : ℝ) => max acc ↑v) ⊥

/-- Embeds `Math.min(...lengths)`: `Infinity` on an empty spread. -/
def jsMin (l : List ℝ) : EReal := l.foldl (fun acc (v : ℝ) => min acc ↑v) ⊤

/-- One entry of the `edgeLengths` array of `MeasurementData`. -/
structure EdgeInfo where
  id : ℕ
  length : ℝ
  vertices : Point × Point
  color : String

/-- Embeds `MeasurementData` (part_001 lines 12-25). -/
structure MeasurementData where
  type : ShapeType
  area : ℝ
  perimeter : ℝ
  maxLength : EReal
  minLength : EReal
  edgeLengths : List EdgeInfo

/-- Embeds `isRectangular` (part_001 lines 325-340): exactly 4 vertices and exactly
4 edges, and every angle between consecutive edge direction vectors within
0.1 rad of `π/2`. -/
def isRectangular (vertices : List Point) (edges : List (Point × Point)) : Prop :=
  vertices.length = 4 ∧ edges.length = 4 ∧
  ∀ i (hi : i < edges.length),
    |Point.angleTo ((edges.get ⟨i, hi⟩).2.sub (edges.get ⟨i, hi⟩).1)
        ((edges.get ⟨(i + 1) % edges.length, Nat.mod_lt _ (Nat.zero_lt_of_lt hi)⟩).2.sub
          (edges.get ⟨(i + 1) % edges.length, Nat.mod_lt _ (Nat.zero_lt_of_lt hi)⟩).1) -
      Real.pi / 2| < 0.1

/-- Embeds `isCircular` (part_001 lines 342-356): at least 8 vertices and distance
variance below `0.01 * avgRadius`. -/
def isCircular (vertices : List Point) : Prop :=
  ¬ vertices.length < 8 ∧ circVariance vertices < 0.01 * circAvg vertices

/-- Embeds `determineShapeType` (part_001 lines 316-323). -/
def determineShapeType (vertices : List Point) (edges : List (Point × Point)) :
    ShapeType :=
  if isRectangular vertices edges then .rectangle
  else if isCircular vertices then .circle
  else .complex

/-- Embeds `calculateMeasurements` (part_001 lines 268-296). -/
def calculateMeasurements (vertices : List Point) (edges : List (Point × Point)) :
    MeasurementData :=
  let edgeLengths := edges.enum.map fun p =>
    EdgeInfo.mk p.1 (p.2.1.distanceTo p.2.2) p.2
      (EDGE_COLORS.getD (p.1 % EDGE_COLORS.length) "")
  { type := determineShapeType vertices edges
    area := calculateArea vertices
    perimeter := (edgeLengths.map EdgeInfo.length).foldl (· + ·) 0
    maxLength := jsMax (edgeLengths.map EdgeInfo.length)
    minLength := jsMin (edgeLengths.map EdgeInfo.length)
    edgeLengths := edgeLengths }

/-- The vertices-to-measurements composition performed by `handleClick`:
`calculateMeasurements(vertices, findEdges(vertices))`. -/
def measureFace (vertices : List Point) : MeasurementData :=
  calculateMeasurements vertices (findEdges vertices)

/-- A per-vertex color triple of the `color` buffer attribute. -/
def Color := ℝ × ℝ × ℝ

/-- Embeds `DEFAULT_COLOR` (hex `#6e6e6e`), as sRGB component triple. -/
def DEFAULT_COLOR : Color := (110 / 255, 110 / 255, 110 / 255)

/-- Embeds `HIGHLIGHT_COLOR` (hex `#2196F3`), as sRGB component triple. -/
def HIGHLIGHT_COLOR : Color := (33 / 255, 150 / 255, 243 / 255)

/-- The mutable component state read and written by `handleClick`:
the vertex color attribute (`none` until the effect on lines 48-59 installs
it), the selected face index, the last value published through `onMeasure`,
and the highlighted edge lines. -/
structure ClickState where
  colors : Option (List Color)
  selectedFaceIndex : Option ℕ
  lastMeasure : Option MeasurementData
  edgeLines : List (Point × Point)

/-- The pick event: `event.face.a` (first vertex index of the hit triangle)
when the hit test resolved a triangle, `none` otherwise. -/
structure ClickEvent where
  face : Option ℕ

/-- The highlight loop of `handleClick` (lines 245-251): for every connected
face, the three color entries `3·faceIdx .. 3·faceIdx + 2` are overwritten. -/
def highlightFaces (cs : List Color) (faces : List ℕ) : List Color :=
  faces.foldl (fun cs i =>
    ((cs.set (i * 3) HIGHLIGHT_COLOR).set (i * 3 + 1) HIGHLIGHT_COLOR).set
      (i * 3 + 2) HIGHLIGHT_COLOR) cs

/-- Embeds `handleClick` (part_001 lines 222-266) as a state transition.  The early
returns (`!meshRef.current || !geometry.attributes.color`, then `!face`)
leave the state untouched and publish nothing; otherwise colors are reset
(when a previous selection exists) and re-highlighted, the selection index
is set, the measurements are published and the edge lines are replaced. -/
def handleClick (pos : List Point) (meshLoaded : Bool) (ev : ClickEvent)
    (st : ClickState) : ClickState :=
  match meshLoaded, st.colors, ev.face with
  | false, _, _ => st
  | true, none, _ => st
  | true, some _, none => st
  | true, some colors0, some a =>
    let colors1 :=
      match st.selectedFaceIndex with
      | some _ => List.replicate colors0.length DEFAULT_COLOR
      | none => colors0
    let faceIndex := a / 3
    let connectedFaces := findConnectedFaces pos faceIndex
    let vertices := getUniqueVertices pos connectedFaces
    let edges := findEdges vertices
    { colors := some (highlightFaces colors1 connectedFaces)
      selectedFaceIndex := some faceIndex
      lastMeasure := some (calculateMeasurements vertices edges)
      edgeLines := edges }

end Model1

namespace Model0

/-- part_000 `Edge` record; the source field `end` is a Lean keyword and is
embedded as `stop`. -/
structure Edge where
  start : Point
  stop : Point
  length : ℝ

/-- part_000 `CircleData`. -/
structure CircleData where
  center : Point
  radius : ℝ
  diameter : ℝ
  circumference : ℝ

/-- part_000 `FaceMeasurements.dimensions`: every field optional. -/
structure Dimensions where
  diameter : Option ℝ := none
  radius : Option ℝ := none
  width : Option ℝ := none
  height : Option ℝ := none
  area : Option ℝ := none
  perimeter : Option ℝ := none
  maxLength : Option ℝ := none
  minLength : Option EReal := none

/-- part_000 `FaceMeasurements`. -/
structure FaceMeasurements where
  type : ShapeType
  edges : List Edge
  vertices : List Point
  dimensions : Dimensions
  circleData : Option CircleData := none

/-- Embeds `calculateEdges` (part_000 lines 132-163): the same pairwise extraction
with sorted-key deduplication as part_001's `findEdges`, recording
`{start, end, length}` per kept pair. -/
def calculateEdges (vertices : List Point) : List Edge :=
  (dedupPairs (pairsInOrder vertices) []).map fun e =>
    ⟨e.1, e.2, e.1.distanceTo e.2⟩

/-- The `maxDist`/`diameter` loop of `analyzeCircularity` (lines 187-197):
the running maximum pairwise vertex distance, starting from 0. -/
def pairwiseMaxDist (vertices : List Point) : ℝ :=
  (pairsInOrder vertices).foldl
    (fun acc e => if e.1.distanceTo e.2 > acc then e.1.distanceTo e.2 else acc) 0

/-- Embeds `analyzeCircularity` (part_000 lines 165-211): `none` models
`{isCircle: false}`; the circle data holds `diameter` = maximum pairwise
distance, `radius = diameter / 2`, `circumference = 2π·radius`. -/
def analyzeCircularity (vertices : List Point) : Option CircleData :=
  if vertices.length < 8 then none
  else if circVariance vertices < 0.01 * circAvg vertices then
    some ⟨circCenter vertices, pairwiseMaxDist vertices / 2, pairwiseMaxDist vertices,
      2 * Real.pi * (pairwiseMaxDist vertices / 2)⟩
  else none

/-- Embeds `isRectangular` (part_000 lines 280-297): angles of the cyclic vertex
triples within 0.1 rad of `π/2`. -/
def isRectangular (vertices : List Point) : Prop :=
  vertices.length = 4 ∧
  ∀ i (hi : i < vertices.length),
    |Point.angleTo
        ((vertices.get ⟨(i + 1) % vertices.length, Nat.mod_lt _ (Nat.zero_lt_of_lt hi)⟩).sub
          (vertices.get ⟨i, hi⟩))
        ((vertices.get ⟨(i + 2) % vertices.length, Nat.mod_lt _ (Nat.zero_lt_of_lt hi)⟩).sub
          (vertices.get ⟨(i + 1) % vertices.length, Nat.mod_lt _ (Nat.zero_lt_of_lt hi)⟩)) -
      Real.pi / 2| < 0.1

/-- The projection loop of part_000 `calculateArea` (lines 302-307).
`normal.multiplyScalar(dot)` mutates `normal` in place, so each iteration
subtracts the running (re-scaled) normal and the next iteration sees the
mutated value; the loop returns the projected vertices. -/
def projectLoop : List Point → Point → List Point
  | [], _ => []
  | v :: rest, n =>
    let n1 := n.multiplyScalar (v.dot n)
    v.sub n1 :: projectLoop rest n1

/-- The fan of part_000 `calculateArea` (lines 309-323): triangles
`(p0, p[i], p[i+1])` for `i = 1 .. n-2`, each contributing
`((p_i - p0) × (p_{i+1} - p0)).length() / 2`. -/
def fanSum0 (p0 : Point) : List Point → ℝ
  | a :: b :: rest => ((a.sub p0).cross (b.sub p0)).length / 2 + fanSum0 p0 (b :: rest)
  | _ => 0

/-- part_000 `calculateArea` (lines 299-326). -/
def calculateArea (vertices : List Point) (normal : Point) : ℝ :=
  match projectLoop vertices normal with
  | p0 :: rest => fanSum0 p0 rest
  | [] => 0

/-- Embeds `Box3.setFromPoints` + `getSize`: componentwise extents, the zero vector
for an empty point list. -/
def boxSize (vertices : List Point) : Point :=
  match vertices with
  | [] => Point.zero
  | v :: rest =>
    (rest.foldl (fun m p => Point.mk (max m.x p.x) (max m.y p.y) (max m.z p.z)) v).sub
      (rest.foldl (fun m p => Point.mk (min m.x p.x) (min m.y p.y) (min m.z p.z)) v)

/-- The `maxLength` loop of `detectShape` (lines 233-242), starting from 0. -/
def maxLength0 (vertices : List Point) : ℝ :=
  (pairsInOrder vertices).foldl (fun m e => max m (e.1.distanceTo e.2)) 0

/-- The `minLength` loop of `detectShape`, starting from `Infinity`. -/
def minLength0 (vertices : List Point) : EReal :=
  (pairsInOrder vertices).foldl (fun m e => min m ↑(e.1.distanceTo e.2)) ⊤

/-- Embeds `detectShape` (part_000 lines 213-278). -/
def detectShape (vertices : List Point) (normal : Point) : FaceMeasurements :=
  let edges := calculateEdges vertices
  match analyzeCircularity vertices with
  | some cd =>
    { type := .circle, edges := edges, vertices := vertices
      dimensions := { radius := some cd.radius, diameter := some cd.diameter
                      area := some (Real.pi * cd.radius ^ 2)
                      perimeter := some cd.circumference }
      circleData := some cd }
  | none =>
    let area := calculateArea vertices normal
    let perimeter := (edges.map Edge.length).foldl (· + ·) 0
    if isRectangular vertices then
      { type := .rectangle, edges := edges, vertices := vertices
        dimensions := { width := some (boxSize vertices).x
                        height := some (boxSize vertices).y
                        area := some area, perimeter := some perimeter
                        maxLength := some (maxLength0 vertices)
                        minLength := some (minLength0 vertices) } }
    else
      { type := .complex, edges := edges, vertices := vertices
        dimensions := { area := some area, perimeter := some perimeter
                        maxLength := some (maxLength0 vertices)
                        minLength := some (minLength0 vertices) } }

end Model0

end


/-! ### Spec-side definitions and concrete scenario inputs -/

noncomputable section

/-- The fan-triangle area exactly as C7 words it: half the magnitude of the
cross product of the two edge vectors of triangle `(a, b, c)`. -/
def specTriArea (a b c : Point) : ℝ := ((b.sub a).cross (c.sub a)).length / 2

/-- The fan-triangulation area as the claim states it: 0 for fewer than 3
vertices, otherwise the sum over `i = 2 .. n-1` of the area of triangle
`(v0, v[i-1], v[i])`. -/
def specFanSum (v0 : Point) : List Point → ℝ
  | a :: b :: rest => specTriArea v0 a b + specFanSum v0 (b :: rest)
  | _ => 0

/-- Spec-side fan-triangulation area of a vertex list. -/
def specFanArea (vs : List Point) : ℝ :=
  if vs.length < 3 then 0
  else
    match vs with
    | v0 :: rest => specFanSum v0 rest
    | [] => 0

/-- The four coplanar distinct vertices of a 10×20 unit axis-aligned
rectangle, in perimeter order (the C1 scenario). -/
def rectVerts : List Point :=
  [⟨0, 0, 0⟩, ⟨10, 0, 0⟩, ⟨10, 20, 0⟩, ⟨0, 20, 0⟩]

/-- A triangle soup holding one degenerate triangle (all three corners at
the origin): its face normal is the zero vector. -/
def degeneratePos : List Point := [⟨0, 0, 0⟩, ⟨0, 0, 0⟩, ⟨0, 0, 0⟩]

/-- A triangle soup holding one nondegenerate triangle in the z = 0 plane. -/
def triPos : List Point := [⟨0, 0, 0⟩, ⟨1, 0, 0⟩, ⟨0, 1, 0⟩]

/-- Eight rational points at exact distance 5 from the origin (so the C3
witness circularity variance is 0). -/
def octagonVerts : List Point :=
  [⟨5, 0, 0⟩, ⟨-5, 0, 0⟩, ⟨0, 5, 0⟩, ⟨0, -5, 0⟩,
   ⟨3, 4, 0⟩, ⟨3, -4, 0⟩, ⟨-3, 4, 0⟩, ⟨-3, -4, 0⟩]

/-- Eight near-circular points: six at distance 5 and two at distance 5.05
from the centroid (the origin).  Classified `circle` at unit scale, but not
after scaling by 200, because the variance threshold `0.01 * avgRadius` is
not scale-invariant. -/
def nearCircleVerts : List Point :=
  [⟨5, 0, 0⟩, ⟨-5, 0, 0⟩, ⟨0, 5.05, 0⟩, ⟨0, -5.05, 0⟩,
   ⟨3, 4, 0⟩, ⟨3, -4, 0⟩, ⟨-3, 4, 0⟩, ⟨-3, -4, 0⟩]

end

/-! ### Helper lemmas about the shared edge extraction -/

/-- A sorted key determines its unordered vertex pair. -/
theorem sortPair_eq_cases {a b c d : Point} (h : sortPair a b = sortPair c d) :
    (a = c ∧ b = d) ∨ (a = d ∧ b = c) := by
  unfold sortPair at h
  split_ifs at h <;>
    simp only [Prod.mk.injEq] at h <;>
    [exact Or.inl ⟨h.2, h.1⟩; exact Or.inr ⟨h.2, h.1⟩;
     exact Or.inr ⟨h.1, h.2⟩; exact Or.inl ⟨h.1, h.2⟩]

/-- Both components of a pair produced by `pairsInOrder` are list members. -/
theorem pairsInOrder_mem {l : List Point} {e : Point × Point}
    (h : e ∈ pairsInOrder l) : e.1 ∈ l ∧ e.2 ∈ l := by
  induction l with
  | nil => simp [pairsInOrder] at h
  | cons v rest ih =>
    simp only [pairsInOrder, List.mem_append, List.mem_map] at h
    rcases h with ⟨w, hw, hwe⟩ | h
    · cases hwe
      exact ⟨List.mem_cons_self _ _, List.mem_cons_of_mem _ hw⟩
    · exact ⟨List.mem_cons_of_mem _ (ih h).1, List.mem_cons_of_mem _ (ih h).2⟩

/-- On a duplicate-free vertex list the sorted keys of `pairsInOrder` are
pairwise distinct. -/
theorem pairsInOrder_keys_pairwise {l : List Point} (h : l.Nodup) :
    (pairsInOrder l).Pairwise fun e f => sortPair e.1 e.2 ≠ sortPair f.1 f.2 := by
  induction l with
  | nil => simp [pairsInOrder]
  | cons v rest ih =>
    have hv : v ∉ rest := (List.nodup_cons.mp h).1
    have hrest : rest.Nodup := (List.nodup_cons.mp h).2
    simp only [pairsInOrder]
    rw [List.pairwise_append]
    refine ⟨?_, ih hrest, ?_⟩
    · rw [List.pairwise_map]
      refine hrest.imp ?_
      intro a b hab hk
      rcases sortPair_eq_cases hk with ⟨_, h2⟩ | ⟨h1, h2⟩
      · exact hab h2
      · exact hab (h2.trans h1)
    · intro e he f hf hk
      rcases List.mem_map.mp he with ⟨w, hw, hwe⟩
      cases hwe
      rcases sortPair_eq_cases hk with ⟨h1, _⟩ | ⟨h1, _⟩
      · have h2 : v = f.1 := h1
        exact hv (by rw [h2]; exact (pairsInOrder_mem hf).1)
      · have h2 : v = f.2 := h1
        exact hv (by rw [h2]; exact (pairsInOrder_mem hf).2)

/-- When every key is fresh and the keys are pairwise distinct, the
key-set deduplication keeps every pair. -/
theorem dedupPairs_eq_self :
    ∀ (l : List (Point × Point)) (seen : List (Point × Point)),
    (l.Pairwise fun e f => sortPair e.1 e.2 ≠ sortPair f.1 f.2) →
    (∀ e ∈ l, sortPair e.1 e.2 ∉ seen) →
    dedupPairs l seen = l := by
  intro l
  induction l with
  | nil => intro seen _ _; rfl
  | cons e rest ih =>
    intro seen hpw hfresh
    have hnot : sortPair e.1 e.2 ∉ seen := hfresh e (List.mem_cons_self _ _)
    rw [dedupPairs, if_neg hnot]
    congr 1
    refine ih _ (List.Pairwise.of_cons hpw) ?_
    intro f hf
    simp only [List.mem_cons]
    push_neg
    constructor
    · exact fun hkey => (List.pairwise_cons.mp hpw).1 f hf hkey.symm
    · exact hfresh f (List.mem_cons_of_mem _ hf)

/-- On a duplicate-free vertex list `findEdges` is exactly the pairwise list
(the key set never rejects a pair). -/
theorem findEdges_eq_pairs {l : List Point} (h : l.Nodup) :
    Model1.findEdges l = pairsInOrder l :=
  dedupPairs_eq_self _ _ (pairsInOrder_keys_pairwise h) (by simp)

/-- Subtraction-free counting of `pairsInOrder`: `2·|pairs| + n = n²`. -/
theorem pairsInOrder_length_sq :
    ∀ l : List Point, 2 * (pairsInOrder l).length + l.length = l.length * l.length := by
  intro l
  induction l with
  | nil => simp [pairsInOrder]
  | cons v rest ih =>
    simp only [pairsInOrder, List.length_append, List.length_map, List.length_cons]
    rw [show (rest.length + 1) * (rest.length + 1) =
      rest.length * rest.length + 2 * rest.length + 1 from by ring, ← ih]
    ring

/-- The list `pairsInOrder l` has `n·(n-1)/2` entries (stated without division). -/
theorem pairsInOrder_length (l : List Point) :
    2 * (pairsInOrder l).length = l.length * (l.length - 1) := by
  have h := pairsInOrder_length_sq l
  rcases hn : l.length with _ | m
  · rw [hn] at h
    simpa using h
  · rw [hn] at h
    rw [Nat.add_sub_cancel]
    rw [show (m + 1) * (m + 1) = (m + 1) * m + (m + 1) from by ring] at h
    exact Nat.add_right_cancel h

/-! ### Nonnegativity and fold lemmas -/

theorem Point.length_nonneg (p : Point) : 0 ≤ p.length := Real.sqrt_nonneg _

theorem Point.distanceTo_nonneg (p q : Point) : 0 ≤ p.distanceTo q :=
  Real.sqrt_nonneg _

theorem Model1.getArea_nonneg (a b c : Point) : 0 ≤ Model1.getArea a b c := by
  unfold Model1.getArea
  have := Point.length_nonneg ((c.sub b).cross (a.sub b))
  linarith

theorem Model1.fanSum_nonneg (v0 : Point) :
    ∀ l : List Point, 0 ≤ Model1.fanSum v0 l := by
  intro l
  induction l with
  | nil => simp [Model1.fanSum]
  | cons a rest ih =>
    cases rest with
    | nil => simp [Model1.fanSum]
    | cons b rest2 =>
      rw [Model1.fanSum]
      exact add_nonneg (Model1.getArea_nonneg v0 a b) ih

theorem Model1.calculateArea_nonneg (vs : List Point) :
    0 ≤ Model1.calculateArea vs := by
  unfold Model1.calculateArea
  split_ifs
  · exact le_refl 0
  · cases vs with
    | nil => exact le_refl 0
    | cons v0 rest => exact Model1.fanSum_nonneg v0 rest

/-- A left fold of `+` over a list of nonnegative reals, from a nonnegative
accumulator, stays nonnegative (the `reduce((sum, l) => sum + l, 0)` shape). -/
theorem foldl_add_nonneg :
    ∀ (l : List ℝ) (acc : ℝ), 0 ≤ acc → (∀ x ∈ l, 0 ≤ x) →
    0 ≤ l.foldl (· + ·) acc := by
  intro l
  induction l with
  | nil => intro acc hacc _; simpa using hacc
  | cons a rest ih =>
    intro acc hacc hall
    rw [List.foldl_cons]
    exact ih _ (add_nonneg hacc (hall a (List.mem_cons_self _ _)))
      fun x hx => hall x (List.mem_cons_of_mem _ hx)

/-- The accumulator is a lower bound of a `max`-fold. -/
theorem jsMax_acc_le :
    ∀ (l : List ℝ) (acc : EReal), acc ≤ l.foldl (fun a v => max a ↑v) acc := by
  intro l
  induction l with
  | nil => intro acc; exact le_refl _
  | cons a rest ih =>
    intro acc
    rw [List.foldl_cons]
    exact le_trans (le_max_left _ _) (ih _)

/-- Every element is a lower bound of a `max`-fold. -/
theorem jsMax_mem_le {l : List ℝ} {x : ℝ} (hx : x ∈ l) :
    ∀ acc : EReal, (x : EReal) ≤ l.foldl (fun a v => max a ↑v) acc := by
  induction l with
  | nil => cases hx
  | cons a rest ih =>
    intro acc
    rcases List.mem_cons.mp hx with h | h
    · subst h
      exact le_trans (le_max_right _ _) (jsMax_acc_le _ _)
    · exact ih h _

/-- The accumulator is an upper bound of a `min`-fold. -/
theorem jsMin_le_acc :
    ∀ (l : List ℝ) (acc : EReal), l.foldl (fun a v => min a ↑v) acc ≤ acc := by
  intro l
  induction l with
  | nil => intro acc; exact le_refl _
  | cons a rest ih =>
    intro acc
    rw [List.foldl_cons]
    exact le_trans (ih _) (min_le_left _ _)

/-- Every element is an upper bound of a `min`-fold. -/
theorem jsMin_le_mem {l : List ℝ} {x : ℝ} (hx : x ∈ l) :
    ∀ acc : EReal, l.foldl (fun a v => min a ↑v) acc ≤ (x : EReal) := by
  induction l with
  | nil => cases hx
  | cons a rest ih =>
    intro acc
    rcases List.mem_cons.mp hx with h | h
    · subst h
      exact le_trans (jsMin_le_acc rest (min acc ↑x)) (min_le_right _ _)
    · exact ih h _

/-- A lower bound of the accumulator and of every element bounds a `min`-fold. -/
theorem le_jsMin_fold {c : EReal} :
    ∀ (l : List ℝ) (acc : EReal), c ≤ acc → (∀ x ∈ l, c ≤ (x : EReal)) →
    c ≤ l.foldl (fun a v => min a ↑v) acc := by
  intro l
  induction l with
  | nil => intro acc hacc _; simpa using hacc
  | cons a rest ih =>
    intro acc hacc hall
    rw [List.foldl_cons]
    exact ih _ (le_min hacc (hall a (List.mem_cons_self _ _)))
      fun x hx => hall x (List.mem_cons_of_mem _ hx)

/-! ### Invariants of the face region grower -/

theorem Model1.mem_addSet {x a : ℕ} {s : List ℕ} (h : x ∈ Model1.addSet a s) :
    x = a ∨ x ∈ s := by
  unfold Model1.addSet at h
  split_ifs at h
  · exact Or.inr h
  · rcases List.mem_append.mp h with h | h
    · exact Or.inr h
    · exact Or.inl (List.mem_singleton.mp h)

theorem Model1.subset_addSet (a : ℕ) (s : List ℕ) : s ⊆ Model1.addSet a s := by
  unfold Model1.addSet
  split_ifs
  · exact fun x hx => hx
  · exact fun x hx => List.mem_append.mpr (Or.inl hx)

/-- Elements of the connected set after a candidate fold were already present
or passed the normal-similarity test against the start normal. -/
theorem Model1.foldl_growStep_mem (pos : List Point) (startN : Point)
    (processed : List ℕ) :
    ∀ (cands : List ℕ) (st : List ℕ × List ℕ) (x : ℕ),
    x ∈ (cands.foldl (Model1.growStep pos startN processed) st).1 →
    x ∈ st.1 ∨ (Model1.faceNormal pos x).dot startN > Model1.NORMAL_THRESHOLD := by
  intro cands
  induction cands with
  | nil => intro st x hx; exact Or.inl hx
  | cons c rest ih =>
    intro st x hx
    rw [List.foldl_cons] at hx
    rcases ih _ x hx with h | h
    · unfold Model1.growStep at h
      split_ifs at h with h1 h2
      · exact Or.inl h
      · rcases Model1.mem_addSet h with rfl | h
        · exact Or.inr h2
        · exact Or.inl h
      · exact Or.inl h
    · exact Or.inr h

/-- The candidate fold never removes a connected face. -/
theorem Model1.subset_foldl_growStep (pos : List Point) (startN : Point)
    (processed : List ℕ) :
    ∀ (cands : List ℕ) (st : List ℕ × List ℕ),
    st.1 ⊆ (cands.foldl (Model1.growStep pos startN processed) st).1 := by
  intro cands
  induction cands with
  | nil => intro st; exact fun x hx => hx
  | cons c rest ih =>
    intro st
    rw [List.foldl_cons]
    refine fun x hx => ih _ ?_
    unfold Model1.growStep
    split_ifs
    · exact hx
    · exact Model1.subset_addSet _ _ hx
    · exact hx

/-- The while loop never removes a connected face. -/
theorem Model1.subset_growLoop (pos : List Point) (startN : Point) :
    ∀ (fuel : ℕ) (stack processed connected : List ℕ),
    connected ⊆ Model1.growLoop pos startN fuel stack processed connected := by
  intro fuel
  induction fuel with
  | zero => intro stack processed connected; exact fun x hx => hx
  | succ fuel ih =>
    intro stack processed connected
    cases stack with
    | nil => exact fun x hx => hx
    | cons current rest =>
      rw [Model1.growLoop]
      split_ifs
      · exact ih _ _ _
      · exact fun x hx =>
          ih _ _ _ (Model1.subset_foldl_growStep pos startN _ _ _ hx)

/-- Every face in the loop's final connected set was connected at entry or
passed the normal-similarity test against the start normal. -/
theorem Model1.growLoop_mem (pos : List Point) (startN : Point) :
    ∀ (fuel : ℕ) (stack processed connected : List ℕ) (x : ℕ),
    x ∈ Model1.growLoop pos startN fuel stack processed connected →
    x ∈ connected ∨ (Model1.faceNormal pos x).dot startN > Model1.NORMAL_THRESHOLD := by
  intro fuel
  induction fuel with
  | zero => intro stack processed connected x hx; exact Or.inl hx
  | succ fuel ih =>
    intro stack processed connected x hx
    cases stack with
    | nil => exact Or.inl hx
    | cons current rest =>
      rw [Model1.growLoop] at hx
      split_ifs at hx
      · exact ih _ _ _ x hx
      · rcases ih _ _ _ x hx with h | h
        · exact Model1.foldl_growStep_mem pos startN _ _ _ x h
        · exact Or.inr h

/-- The seed face is always a member of its own grown region (the JS set is
initialized with the start face). -/
theorem Model1.seed_mem_findConnectedFaces (pos : List Point) (seed : ℕ) :
    seed ∈ Model1.findConnectedFaces pos seed :=
  Model1.subset_growLoop pos _ _ _ _ _ (List.mem_singleton.mpr rfl)

/-- Every member of a grown region is the seed itself or passed the
`dot(candidateNormal, startNormal) > NORMAL_THRESHOLD` test. -/
theorem Model1.findConnectedFaces_mem_cases (pos : List Point) (seed : ℕ) {f : ℕ}
    (hf : f ∈ Model1.findConnectedFaces pos seed) :
    f = seed ∨
    (Model1.faceNormal pos f).dot (Model1.faceNormal pos seed) >
      Model1.NORMAL_THRESHOLD := by
  rcases Model1.growLoop_mem pos _ _ _ _ _ f hf with h | h
  · exact Or.inl (List.mem_singleton.mp h)
  · exact Or.inr h

/-! ### Normals and deduplication -/

theorem Point.lengthSq_nonneg (p : Point) : 0 ≤ p.lengthSq := by
  unfold Point.lengthSq
  nlinarith [sq_nonneg p.x, sq_nonneg p.y, sq_nonneg p.z]

theorem Point.lengthSq_eq_zero_iff (p : Point) : p.lengthSq = 0 ↔ p = Point.zero := by
  unfold Point.lengthSq Point.zero
  constructor
  · intro h
    have hx : p.x = 0 := by nlinarith [sq_nonneg p.x, sq_nonneg p.y, sq_nonneg p.z]
    have hy : p.y = 0 := by nlinarith [sq_nonneg p.x, sq_nonneg p.y, sq_nonneg p.z]
    have hz : p.z = 0 := by nlinarith [sq_nonneg p.x, sq_nonneg p.y, sq_nonneg p.z]
    ext <;> assumption
  · intro h
    rw [h]
    norm_num

theorem Point.length_eq_zero_iff (p : Point) : p.length = 0 ↔ p = Point.zero := by
  unfold Point.length
  rw [Real.sqrt_eq_zero (Point.lengthSq_nonneg p)]
  exact Point.lengthSq_eq_zero_iff p

/-- A vector with nonzero cross product has a unit normal: the self-dot of
its normalization is 1. -/
theorem Point.normalize_self_dot {p : Point} (h : p ≠ Point.zero) :
    p.normalize.dot p.normalize = 1 := by
  have hsq : p.lengthSq ≠ 0 := fun h0 => h ((Point.lengthSq_eq_zero_iff p).mp h0)
  have hlen : p.length ≠ 0 := fun h0 => h ((Point.length_eq_zero_iff p).mp h0)
  have hL : p.length * p.length = p.lengthSq :=
    Real.mul_self_sqrt (Point.lengthSq_nonneg p)
  unfold Point.normalize
  rw [if_neg hlen]
  show p.x / p.length * (p.x / p.length) + p.y / p.length * (p.y / p.length) +
      p.z / p.length * (p.z / p.length) = 1
  rw [show p.x / p.length * (p.x / p.length) + p.y / p.length * (p.y / p.length) +
      p.z / p.length * (p.z / p.length) =
      (p.x * p.x + p.y * p.y + p.z * p.z) / (p.length * p.length) from by ring, hL]
  exact div_self hsq

/-- Members of `dedupFirst l seen` are members of `l` not in `seen`, and the
output has no duplicates. -/
theorem Model1.dedupFirst_nodup :
    ∀ (l seen : List Point), (Model1.dedupFirst l seen).Nodup ∧
      ∀ x ∈ Model1.dedupFirst l seen, x ∉ seen := by
  intro l
  induction l with
  | nil => intro seen; constructor <;> simp [Model1.dedupFirst]
  | cons v rest ih =>
    intro seen
    rw [Model1.dedupFirst]
    split_ifs with hmem
    · exact ih seen
    · refine ⟨List.nodup_cons.mpr ⟨?_, (ih (v :: seen)).1⟩, ?_⟩
      · intro hv
        exact (ih (v :: seen)).2 v hv (List.mem_cons_self _ _)
      · intro x hx
        rcases List.mem_cons.mp hx with rfl | hx
        · exact hmem
        · intro hxseen
          exact (ih (v :: seen)).2 x hx (List.mem_cons_of_mem _ hxseen)

/-- The unique-vertex list of a region is duplicate-free. -/
theorem Model1.getUniqueVertices_nodup (pos : List Point) (faceIndices : List ℕ) :
    (Model1.getUniqueVertices pos faceIndices).Nodup :=
  (Model1.dedupFirst_nodup _ _).1

/-! ### Scaling lemmas -/

theorem EReal.coe_mono_max (a b : ℝ) : ((max a b : ℝ) : EReal) = max ↑a ↑b :=
  EReal.coe_strictMono.monotone.map_max

theorem EReal.coe_mono_min (a b : ℝ) : ((min a b : ℝ) : EReal) = min ↑a ↑b :=
  EReal.coe_strictMono.monotone.map_min

/-- Multiplication by a positive real coefficient distributes over `max` in `EReal`. -/
theorem ecoe_mul_max {k : ℝ} (hk : 0 < k) (a b : EReal) :
    (k : EReal) * max a b = max ((k : EReal) * a) ((k : EReal) * b) := by
  induction a using EReal.rec with
  | h_bot =>
    rw [max_eq_right bot_le, EReal.coe_mul_bot_of_pos hk, max_eq_right bot_le]
  | h_real x =>
    induction b using EReal.rec with
    | h_bot =>
      rw [max_eq_left bot_le, EReal.coe_mul_bot_of_pos hk, max_eq_left bot_le]
    | h_real y =>
      rw [← EReal.coe_mono_max, ← EReal.coe_mul, ← EReal.coe_mul, ← EReal.coe_mul,
        ← EReal.coe_mono_max, mul_max_of_nonneg _ _ hk.le]
    | h_top =>
      rw [max_eq_right le_top, EReal.coe_mul_top_of_pos hk, max_eq_right le_top]
  | h_top =>
    rw [max_eq_left le_top, EReal.coe_mul_top_of_pos hk, max_eq_left le_top]

/-- Multiplication by a positive real coefficient distributes over `min` in `EReal`. -/
theorem ecoe_mul_min {k : ℝ} (hk : 0 < k) (a b : EReal) :
    (k : EReal) * min a b = min ((k : EReal) * a) ((k : EReal) * b) := by
  induction a using EReal.rec with
  | h_bot =>
    rw [min_eq_left bot_le, EReal.coe_mul_bot_of_pos hk, min_eq_left bot_le]
  | h_real x =>
    induction b using EReal.rec with
    | h_bot =>
      rw [min_eq_right bot_le, EReal.coe_mul_bot_of_pos hk, min_eq_right bot_le]
    | h_real y =>
      rw [← EReal.coe_mono_min, ← EReal.coe_mul, ← EReal.coe_mul, ← EReal.coe_mul,
        ← EReal.coe_mono_min, mul_min_of_nonneg _ _ hk.le]
    | h_top =>
      rw [min_eq_left le_top, EReal.coe_mul_top_of_pos hk, min_eq_left le_top]
  | h_top =>
    rw [min_eq_right le_top, EReal.coe_mul_top_of_pos hk, min_eq_right le_top]

theorem scalePt_sub (k : ℝ) (p q : Point) :
    (scalePt k p).sub (scalePt k q) = scalePt k (p.sub q) := by
  unfold scalePt Point.sub
  ext <;> dsimp <;> ring

theorem scalePt_cross (k : ℝ) (p q : Point) :
    (scalePt k p).cross (scalePt k q) = scalePt (k * k) (p.cross q) := by
  unfold scalePt Point.cross
  ext <;> dsimp <;> ring

theorem scalePt_lengthSq (k : ℝ) (p : Point) :
    (scalePt k p).lengthSq = k ^ 2 * p.lengthSq := by
  unfold scalePt Point.lengthSq
  dsimp
  ring

theorem scalePt_length {k : ℝ} (hk : 0 ≤ k) (p : Point) :
    (scalePt k p).length = k * p.length := by
  unfold Point.length
  rw [scalePt_lengthSq, Real.sqrt_mul (sq_nonneg k), Real.sqrt_sq hk]

theorem scalePt_distanceTo {k : ℝ} (hk : 0 ≤ k) (p q : Point) :
    (scalePt k p).distanceTo (scalePt k q) = k * p.distanceTo q := by
  unfold Point.distanceTo
  rw [scalePt_sub, scalePt_length hk]

theorem scalePt_injective {k : ℝ} (hk : k ≠ 0) : Function.Injective (scalePt k) := by
  intro p q h
  unfold scalePt at h
  rw [Point.mk.injEq] at h
  ext
  · exact mul_left_cancel₀ hk h.1
  · exact mul_left_cancel₀ hk h.2.1
  · exact mul_left_cancel₀ hk h.2.2

theorem lexLt_scale {k : ℝ} (hk : 0 < k) (p q : Point) :
    lexLt (scalePt k p) (scalePt k q) ↔ lexLt p q := by
  unfold lexLt scalePt
  dsimp
  rw [mul_lt_mul_left hk, mul_lt_mul_left hk, mul_lt_mul_left hk,
    mul_right_inj' hk.ne', mul_right_inj' hk.ne']

theorem sortPair_scale {k : ℝ} (hk : 0 < k) (p q : Point) :
    sortPair (scalePt k p) (scalePt k q) =
      Prod.map (scalePt k) (scalePt k) (sortPair p q) := by
  unfold sortPair
  by_cases h : lexLt q p
  · rw [if_pos ((lexLt_scale hk q p).mpr h), if_pos h]
    rfl
  · rw [if_neg (fun hc => h ((lexLt_scale hk q p).mp hc)), if_neg h]
    rfl

theorem pairsInOrder_map (f : Point → Point) :
    ∀ l : List Point,
    pairsInOrder (l.map f) = (pairsInOrder l).map (Prod.map f f) := by
  intro l
  induction l with
  | nil => rfl
  | cons v rest ih =>
    simp only [List.map_cons, pairsInOrder, ih, List.map_append, List.map_map]
    congr 1

theorem dedupPairs_scale {k : ℝ} (hk : 0 < k) :
    ∀ (l seen : List (Point × Point)),
    dedupPairs (l.map (Prod.map (scalePt k) (scalePt k)))
        (seen.map (Prod.map (scalePt k) (scalePt k))) =
      (dedupPairs l seen).map (Prod.map (scalePt k) (scalePt k)) := by
  intro l
  induction l with
  | nil => intro seen; rfl
  | cons e rest ih =>
    intro seen
    have hinj : Function.Injective (Prod.map (scalePt k) (scalePt k)) :=
      Function.Injective.prodMap (scalePt_injective hk.ne') (scalePt_injective hk.ne')
    have hkey : sortPair (Prod.map (scalePt k) (scalePt k) e).1
        (Prod.map (scalePt k) (scalePt k) e).2 =
        Prod.map (scalePt k) (scalePt k) (sortPair e.1 e.2) := sortPair_scale hk e.1 e.2
    rw [List.map_cons, dedupPairs, dedupPairs, hkey]
    by_cases hmem : sortPair e.1 e.2 ∈ seen
    · rw [if_pos (List.mem_map_of_mem _ hmem), if_pos hmem, ih]
    · rw [if_neg (fun hc => hmem ((List.mem_map_of_injective hinj).mp hc)),
        if_neg hmem, List.map_cons]
      congr 1
      rw [← ih (sortPair e.1 e.2 :: seen), List.map_cons]

theorem findEdges_scale {k : ℝ} (hk : 0 < k) (vs : List Point) :
    Model1.findEdges (vs.map (scalePt k)) =
      (Model1.findEdges vs).map (Prod.map (scalePt k) (scalePt k)) := by
  unfold Model1.findEdges
  rw [pairsInOrder_map]
  exact dedupPairs_scale hk (pairsInOrder vs) []

theorem getArea_scale (k : ℝ) (a b c : Point) :
    Model1.getArea (scalePt k a) (scalePt k b) (scalePt k c) =
      k ^ 2 * Model1.getArea a b c := by
  unfold Model1.getArea
  rw [scalePt_sub, scalePt_sub, scalePt_cross,
    scalePt_length (by nlinarith : (0 : ℝ) ≤ k * k)]
  ring

theorem fanSum_scale (k : ℝ) (v0 : Point) :
    ∀ l : List Point,
    Model1.fanSum (scalePt k v0) (l.map (scalePt k)) = k ^ 2 * Model1.fanSum v0 l := by
  intro l
  induction l with
  | nil => simp [Model1.fanSum]
  | cons a rest ih =>
    cases rest with
    | nil => simp [Model1.fanSum]
    | cons b rest2 =>
      simp only [List.map_cons] at ih ⊢
      rw [Model1.fanSum, Model1.fanSum, getArea_scale k, ih]
      ring

theorem calculateArea_scale (k : ℝ) (vs : List Point) :
    Model1.calculateArea (vs.map (scalePt k)) = k ^ 2 * Model1.calculateArea vs := by
  unfold Model1.calculateArea
  rw [List.length_map]
  split_ifs
  · ring
  · cases vs with
    | nil => simp
    | cons v0 rest =>
      rw [List.map_cons]
      exact fanSum_scale k v0 rest

/-- Embeds `reduce((sum, l) => sum + l, 0)` over scaled lengths, with scaled
accumulator. -/
theorem foldl_add_scale (k : ℝ) :
    ∀ (l : List ℝ) (acc : ℝ),
    (l.map (fun x => k * x)).foldl (· + ·) (k * acc) = k * l.foldl (· + ·) acc := by
  intro l
  induction l with
  | nil => intro acc; rfl
  | cons a rest ih =>
    intro acc
    rw [List.map_cons, List.foldl_cons, List.foldl_cons, ← mul_add, ih]

theorem jsMax_scale {k : ℝ} (hk : 0 < k) :
    ∀ (l : List ℝ) (acc : EReal),
    (l.map (fun x => k * x)).foldl (fun a v => max a ↑v) ((k : EReal) * acc) =
      (k : EReal) * l.foldl (fun a v => max a ↑v) acc := by
  intro l
  induction l with
  | nil => intro acc; rfl
  | cons a rest ih =>
    intro acc
    rw [List.map_cons, List.foldl_cons, List.foldl_cons, ← ih (max acc ↑a),
      ecoe_mul_max hk, EReal.coe_mul]

theorem jsMin_scale {k : ℝ} (hk : 0 < k) :
    ∀ (l : List ℝ) (acc : EReal),
    (l.map (fun x => k * x)).foldl (fun a v => min a ↑v) ((k : EReal) * acc) =
      (k : EReal) * l.foldl (fun a v => min a ↑v) acc := by
  intro l
  induction l with
  | nil => intro acc; rfl
  | cons a rest ih =>
    intro acc
    rw [List.map_cons, List.foldl_cons, List.foldl_cons, ← ih (min acc ↑a),
      ecoe_mul_min hk, EReal.coe_mul]

theorem enumFrom_map_pair {α β : Type} (f : α → β) :
    ∀ (l : List α) (n : ℕ),
    (l.map f).enumFrom n = (l.enumFrom n).map fun p => (p.1, f p.2) := by
  intro l
  induction l with
  | nil => intro n; rfl
  | cons a rest ih =>
    intro n
    simp only [List.map_cons, List.enumFrom_cons, ih]

theorem enum_map_pair {α β : Type} (f : α → β) (l : List α) :
    (l.map f).enum = l.enum.map fun p => (p.1, f p.2) :=
  enumFrom_map_pair f l 0

/-- The reported edge lengths of a uniformly scaled vertex list are the
original edge lengths scaled by `k`. -/
theorem measureFace_edgeLengths_scale {k : ℝ} (hk : 0 < k) (vs : List Point) :
    (Model1.measureFace (vs.map (scalePt k))).edgeLengths.map Model1.EdgeInfo.length =
      ((Model1.measureFace vs).edgeLengths.map Model1.EdgeInfo.length).map
        (fun x => k * x) := by
  unfold Model1.measureFace Model1.calculateMeasurements
  simp only [findEdges_scale hk, enum_map_pair, List.map_map]
  refine List.map_congr_left ?_
  intro p _
  simp only [Function.comp]
  exact scalePt_distanceTo hk.le p.2.1 p.2.2

/-- Ids and colors of the reported edges are untouched by scaling. -/
theorem measureFace_edgeIds_scale {k : ℝ} (hk : 0 < k) (vs : List Point) :
    (Model1.measureFace (vs.map (scalePt k))).edgeLengths.map
        (fun e => (e.id, e.color)) =
      (Model1.measureFace vs).edgeLengths.map (fun e => (e.id, e.color)) := by
  unfold Model1.measureFace Model1.calculateMeasurements
  simp only [findEdges_scale hk, enum_map_pair, List.map_map]
  rfl

theorem measureFace_perimeter_eq (vs : List Point) :
    (Model1.measureFace vs).perimeter =
      ((Model1.measureFace vs).edgeLengths.map Model1.EdgeInfo.length).foldl (· + ·) 0 :=
  rfl

theorem measureFace_maxLength_eq (vs : List Point) :
    (Model1.measureFace vs).maxLength =
      Model1.jsMax ((Model1.measureFace vs).edgeLengths.map Model1.EdgeInfo.length) :=
  rfl

theorem measureFace_minLength_eq (vs : List Point) :
    (Model1.measureFace vs).minLength =
      Model1.jsMin ((Model1.measureFace vs).edgeLengths.map Model1.EdgeInfo.length) :=
  rfl

theorem measureFace_area_eq (vs : List Point) :
    (Model1.measureFace vs).area = Model1.calculateArea vs :=
  rfl

theorem jsMax_map_scale {k : ℝ} (hk : 0 < k) (l : List ℝ) :
    Model1.jsMax (l.map fun x => k * x) = (k : EReal) * Model1.jsMax l := by
  unfold Model1.jsMax
  calc (l.map fun x => k * x).foldl (fun a v => max a ↑v) ⊥
      = (l.map fun x => k * x).foldl (fun a v => max a ↑v) ((k : EReal) * ⊥) := by
        rw [EReal.coe_mul_bot_of_pos hk]
    _ = (k : EReal) * l.foldl (fun a v => max a ↑v) ⊥ := jsMax_scale hk l ⊥

theorem jsMin_map_scale {k : ℝ} (hk : 0 < k) (l : List ℝ) :
    Model1.jsMin (l.map fun x => k * x) = (k : EReal) * Model1.jsMin l := by
  unfold Model1.jsMin
  calc (l.map fun x => k * x).foldl (fun a v => min a ↑v) ⊤
      = (l.map fun x => k * x).foldl (fun a v => min a ↑v) ((k : EReal) * ⊤) := by
        rw [EReal.coe_mul_top_of_pos hk]
    _ = (k : EReal) * l.foldl (fun a v => min a ↑v) ⊤ := jsMin_scale hk l ⊤

/-! ### Bounds on the reported measurement fields -/

theorem measureFace_lengths_nonneg (vs : List Point) :
    ∀ x ∈ (Model1.measureFace vs).edgeLengths.map Model1.EdgeInfo.length, 0 ≤ x := by
  intro x hx
  unfold Model1.measureFace Model1.calculateMeasurements at hx
  simp only [List.map_map, List.mem_map] at hx
  rcases hx with ⟨p, _, hp⟩
  rw [← hp]
  exact Point.distanceTo_nonneg _ _

theorem jsMin_le_jsMax {l : List ℝ} (h : l ≠ []) :
    Model1.jsMin l ≤ Model1.jsMax l := by
  cases l with
  | nil => cases h rfl
  | cons a rest =>
    exact le_trans (jsMin_le_mem (List.mem_cons_self a rest) ⊤)
      (jsMax_mem_le (List.mem_cons_self a rest) ⊥)

theorem jsMin_nonneg {l : List ℝ} (hall : ∀ x ∈ l, 0 ≤ x) :
    0 ≤ Model1.jsMin l := by
  refine le_jsMin_fold l ⊤ le_top ?_
  intro x hx
  exact_mod_cast hall x hx

theorem jsMax_nonneg {l : List ℝ} (h : l ≠ []) (hall : ∀ x ∈ l, 0 ≤ x) :
    0 ≤ Model1.jsMax l := by
  cases l with
  | nil => cases h rfl
  | cons a rest =>
    refine le_trans ?_ (jsMax_mem_le (List.mem_cons_self a rest) ⊥)
    exact_mod_cast hall a (List.mem_cons_self a rest)

/-- Entry `i` of the reported edge list carries id `i` and the palette color
`EDGE_COLORS[i % 8]`. -/
theorem measureFace_edge_get (vs : List Point) (i : ℕ)
    (hi : i < (Model1.measureFace vs).edgeLengths.length) :
    ((Model1.measureFace vs).edgeLengths.get ⟨i, hi⟩).id = i ∧
    ((Model1.measureFace vs).edgeLengths.get ⟨i, hi⟩).color =
      Model1.EDGE_COLORS.getD (i % 8) "" := by
  have hlen : i < (Model1.findEdges vs).enum.length := by
    unfold Model1.measureFace Model1.calculateMeasurements at hi
    simpa using hi
  unfold Model1.measureFace Model1.calculateMeasurements
  rw [List.get_eq_getElem]
  simp only [List.getElem_map, List.getElem_enum]
  exact ⟨trivial, rfl⟩

/-! ### Small evaluation helpers -/

theorem measureFace_type_eq (vs : List Point) :
    (Model1.measureFace vs).type =
      Model1.determineShapeType vs (Model1.findEdges vs) :=
  rfl

theorem measureFace_edges_eq (vs : List Point) :
    (Model1.measureFace vs).edgeLengths =
      (Model1.findEdges vs).enum.map fun p =>
        Model1.EdgeInfo.mk p.1 (p.2.1.distanceTo p.2.2) p.2
          (Model1.EDGE_COLORS.getD (p.1 % Model1.EDGE_COLORS.length) "") :=
  rfl

/-- When the vertex count is not 4 (or the edge count is not 4) and the
vertex count is below 8, `determineShapeType` falls through to `complex`. -/
theorem determineShapeType_complex {vs : List Point} {es : List (Point × Point)}
    (h4 : vs.length ≠ 4 ∨ es.length ≠ 4) (h8 : vs.length < 8) :
    Model1.determineShapeType vs es = ShapeType.complex := by
  unfold Model1.determineShapeType
  rw [if_neg, if_neg]
  · intro hc
    exact hc.1 h8
  · intro hr
    rcases h4 with h | h
    · exact h hr.1
    · exact h hr.2.1

theorem Point.normalize_zero : Point.zero.normalize = Point.zero := by
  unfold Point.normalize Point.divideScalar
  rw [if_pos]
  · unfold Point.zero
    norm_num
  · rw [Point.length_eq_zero_iff]

/-! ### Claim theorems -/

/-- C8: a region resolving to a single distinct vertex yields area 0,
perimeter 0, classification `complex` and an empty edge list (and no error:
every branch is total). -/
theorem single_vertex_measurements (v : Point) :
    (Model1.measureFace [v]).area = 0 ∧
    (Model1.measureFace [v]).perimeter = 0 ∧
    (Model1.measureFace [v]).type = ShapeType.complex ∧
    (Model1.measureFace [v]).edgeLengths = [] := by
  refine ⟨?_, rfl, ?_, rfl⟩
  · rw [measureFace_area_eq]
    unfold Model1.calculateArea
    rw [if_pos]
    norm_num
  · rw [measureFace_type_eq]
    exact determineShapeType_complex (Or.inl (by norm_num)) (by norm_num)

/-- C6: area and perimeter are nonnegative, and whenever the edge list is
non-empty, `minLength ≤ maxLength` and both are nonnegative. -/
theorem measurement_bounds (vs : List Point) :
    0 ≤ (Model1.measureFace vs).area ∧
    0 ≤ (Model1.measureFace vs).perimeter ∧
    ((Model1.measureFace vs).edgeLengths ≠ [] →
      (Model1.measureFace vs).minLength ≤ (Model1.measureFace vs).maxLength ∧
      0 ≤ (Model1.measureFace vs).minLength ∧
      0 ≤ (Model1.measureFace vs).maxLength) := by
  refine ⟨?_, ?_, ?_⟩
  · rw [measureFace_area_eq]
    exact Model1.calculateArea_nonneg vs
  · rw [measureFace_perimeter_eq]
    exact foldl_add_nonneg _ 0 le_rfl (measureFace_lengths_nonneg vs)
  · intro hne
    have hmapne : (Model1.measureFace vs).edgeLengths.map Model1.EdgeInfo.length ≠ [] := by
      simpa using hne
    refine ⟨?_, ?_, ?_⟩
    · rw [measureFace_minLength_eq, measureFace_maxLength_eq]
      exact jsMin_le_jsMax hmapne
    · rw [measureFace_minLength_eq]
      exact jsMin_nonneg (measureFace_lengths_nonneg vs)
    · rw [measureFace_maxLength_eq]
      exact jsMax_nonneg hmapne (measureFace_lengths_nonneg vs)

/-- C6 witness: for the two-vertex segment `[(0,0,0), (1,0,0)]` the edge
list is non-empty and the bounds hold. -/
theorem measurement_bounds_witness :
    (Model1.measureFace [⟨0, 0, 0⟩, ⟨1, 0, 0⟩]).edgeLengths ≠ [] ∧
    ((Model1.measureFace [⟨0, 0, 0⟩, ⟨1, 0, 0⟩]).minLength ≤
      (Model1.measureFace [⟨0, 0, 0⟩, ⟨1, 0, 0⟩]).maxLength ∧
    0 ≤ (Model1.measureFace [⟨0, 0, 0⟩, ⟨1, 0, 0⟩]).minLength ∧
    0 ≤ (Model1.measureFace [⟨0, 0, 0⟩, ⟨1, 0, 0⟩]).maxLength) := by
  have hnd : ([⟨0, 0, 0⟩, ⟨1, 0, 0⟩] : List Point).Nodup := by
    norm_num [List.nodup_cons, Point.ext_iff]
  have hne : (Model1.measureFace [⟨0, 0, 0⟩, ⟨1, 0, 0⟩]).edgeLengths ≠ [] := by
    rw [measureFace_edges_eq, findEdges_eq_pairs hnd]
    simp [pairsInOrder]
  exact ⟨hne, (measurement_bounds [⟨0, 0, 0⟩, ⟨1, 0, 0⟩]).2.2 hne⟩

theorem getArea_eq_specTriArea (a b c : Point) :
    Model1.getArea a b c = specTriArea a b c := by
  unfold Model1.getArea specTriArea
  have : (c.sub b).cross (a.sub b) = (b.sub a).cross (c.sub a) := by
    unfold Point.cross Point.sub
    ext <;> dsimp <;> ring
  rw [this]

theorem fanSum_eq_specFanSum (v0 : Point) :
    ∀ l : List Point, Model1.fanSum v0 l = specFanSum v0 l := by
  intro l
  induction l with
  | nil => rfl
  | cons a rest ih =>
    cases rest with
    | nil => rfl
    | cons b rest2 =>
      rw [Model1.fanSum, specFanSum, getArea_eq_specTriArea, ih]

/-- C7: for a vertex list not classified as `circle`, the computed area is
the fan triangulation from vertex 0 (triangles `(v0, v[i-1], v[i])`, each
half the cross-product magnitude of its edge vectors; 0 below 3 vertices). -/
theorem area_fan_triangulation (vs : List Point)
    (h : (Model1.measureFace vs).type ≠ ShapeType.circle) :
    (Model1.measureFace vs).area = specFanArea vs := by
  rw [measureFace_area_eq]
  unfold Model1.calculateArea specFanArea
  split_ifs
  · rfl
  · cases vs with
    | nil => rfl
    | cons v0 rest => exact fanSum_eq_specFanSum v0 rest

/-- C7 witness: the two-vertex list is classified `complex`, and its area
equals the spec-side fan area (both 0). -/
theorem area_fan_triangulation_witness :
    (Model1.measureFace [⟨0, 0, 0⟩, ⟨1, 0, 0⟩]).type ≠ ShapeType.circle ∧
    (Model1.measureFace [⟨0, 0, 0⟩, ⟨1, 0, 0⟩]).area =
      specFanArea [⟨0, 0, 0⟩, ⟨1, 0, 0⟩] := by
  have h : (Model1.measureFace [⟨0, 0, 0⟩, ⟨1, 0, 0⟩]).type ≠ ShapeType.circle := by
    rw [measureFace_type_eq,
      determineShapeType_complex (Or.inl (by norm_num)) (by norm_num)]
    decide
  exact ⟨h, area_fan_triangulation _ h⟩

/-- C4: on a duplicate-free vertex list, edge extraction yields exactly
`n·(n-1)/2` edges and the reported entry `i` carries id `i` and color
`palette[i % 8]`. -/
theorem pairwise_edges_count_ids (vs : List Point) (h : vs.Nodup) :
    (Model1.findEdges vs).length = vs.length * (vs.length - 1) / 2 ∧
    ∀ i (hi : i < (Model1.measureFace vs).edgeLengths.length),
      ((Model1.measureFace vs).edgeLengths.get ⟨i, hi⟩).id = i ∧
      ((Model1.measureFace vs).edgeLengths.get ⟨i, hi⟩).color =
        Model1.EDGE_COLORS.getD (i % 8) "" := by
  refine ⟨?_, fun i hi => measureFace_edge_get vs i hi⟩
  rw [findEdges_eq_pairs h]
  have h2 := pairsInOrder_length vs
  omega

/-- C4 witness: three distinct collinear points produce `3·2/2 = 3` edges
with ids 0,1,2 and palette colors. -/
theorem pairwise_edges_count_ids_witness :
    ([⟨0, 0, 0⟩, ⟨1, 0, 0⟩, ⟨2, 0, 0⟩] : List Point).Nodup ∧
    (Model1.findEdges [⟨0, 0, 0⟩, ⟨1, 0, 0⟩, ⟨2, 0, 0⟩]).length = 3 ∧
    ∀ i (hi : i <
        (Model1.measureFace [⟨0, 0, 0⟩, ⟨1, 0, 0⟩, ⟨2, 0, 0⟩]).edgeLengths.length),
      ((Model1.measureFace [⟨0, 0, 0⟩, ⟨1, 0, 0⟩, ⟨2, 0, 0⟩]).edgeLengths.get
        ⟨i, hi⟩).id = i ∧
      ((Model1.measureFace [⟨0, 0, 0⟩, ⟨1, 0, 0⟩, ⟨2, 0, 0⟩]).edgeLengths.get
        ⟨i, hi⟩).color = Model1.EDGE_COLORS.getD (i % 8) "" := by
  have hnd : ([⟨0, 0, 0⟩, ⟨1, 0, 0⟩, ⟨2, 0, 0⟩] : List Point).Nodup := by
    norm_num [List.nodup_cons, Point.ext_iff]
  have h := pairwise_edges_count_ids _ hnd
  exact ⟨hnd, h.1, h.2⟩

/-- C10: the pipeline's classifier never returns `rectangle`: the vertex
lists reaching it come from `getUniqueVertices` (duplicate-free), and 4
distinct vertices always yield 6 pairwise edges, failing the 4-edge test. -/
theorem pipeline_never_rectangle (pos : List Point) (faceIndices : List ℕ) :
    (Model1.measureFace (Model1.getUniqueVertices pos faceIndices)).type ≠
      ShapeType.rectangle := by
  rw [measureFace_type_eq]
  unfold Model1.determineShapeType
  split_ifs with h1 h2
  · exfalso
    have hnd := Model1.getUniqueVertices_nodup pos faceIndices
    have he := h1.2.1
    rw [findEdges_eq_pairs hnd] at he
    have hp := pairsInOrder_length (Model1.getUniqueVertices pos faceIndices)
    rw [h1.1] at hp
    omega
  · decide
  · decide

/-- C2 (amended): for every triangle soup and seed whose triangle has a
nonzero cross product, the grown region contains the seed and every member's
normal dots with the seed normal above `NORMAL_THRESHOLD`. -/
theorem region_grower_normal_similarity (pos : List Point) (seed : ℕ)
    (h : Model1.faceCross pos seed ≠ Point.zero) :
    seed ∈ Model1.findConnectedFaces pos seed ∧
    ∀ f ∈ Model1.findConnectedFaces pos seed,
      (Model1.faceNormal pos f).dot (Model1.faceNormal pos seed) >
        Model1.NORMAL_THRESHOLD := by
  refine ⟨Model1.seed_mem_findConnectedFaces pos seed, ?_⟩
  intro f hf
  rcases Model1.findConnectedFaces_mem_cases pos seed hf with rfl | hdot
  · have h1 : (Model1.faceNormal pos f).dot (Model1.faceNormal pos f) = 1 :=
      Point.normalize_self_dot h
    rw [h1]
    unfold Model1.NORMAL_THRESHOLD
    norm_num
  · exact hdot

/-- C2 counterexample: for a soup holding one degenerate triangle, the seed
face 0 is in its own region but its (zero) normal's self-dot is 0, which
does not exceed `NORMAL_THRESHOLD` — the claim fails for degenerate seeds. -/
theorem region_grower_counterexample :
    0 ∈ Model1.findConnectedFaces degeneratePos 0 ∧
    ¬ (Model1.faceNormal degeneratePos 0).dot (Model1.faceNormal degeneratePos 0) >
      Model1.NORMAL_THRESHOLD := by
  refine ⟨Model1.seed_mem_findConnectedFaces _ _, ?_⟩
  have hc : Model1.faceCross degeneratePos 0 = Point.zero := by
    unfold Model1.faceCross Model1.vert degeneratePos
    norm_num [Point.sub, Point.cross, Point.zero]
  have hn : Model1.faceNormal degeneratePos 0 = Point.zero := by
    unfold Model1.faceNormal
    rw [hc, Point.normalize_zero]
  rw [hn]
  unfold Point.dot Point.zero Model1.NORMAL_THRESHOLD
  norm_num

/-- C2 witness: a nondegenerate one-triangle soup satisfies the amended
claim's hypothesis, and the conclusion follows. -/
theorem region_grower_witness :
    Model1.faceCross triPos 0 ≠ Point.zero ∧
    (0 ∈ Model1.findConnectedFaces triPos 0 ∧
    ∀ f ∈ Model1.findConnectedFaces triPos 0,
      (Model1.faceNormal triPos f).dot (Model1.faceNormal triPos 0) >
        Model1.NORMAL_THRESHOLD) := by
  have h : Model1.faceCross triPos 0 ≠ Point.zero := by
    unfold Model1.faceCross Model1.vert triPos
    norm_num [Point.sub, Point.cross, Point.zero, Point.ext_iff]
  exact ⟨h, region_grower_normal_similarity triPos 0 h⟩

/-- C9: a pick that misses every triangle, or arrives before the mesh's
color attribute exists, leaves the whole selection state unchanged and
publishes no measurement. -/
theorem invalid_pick_noop (pos : List Point) (meshLoaded : Bool)
    (ev : Model1.ClickEvent) (st : Model1.ClickState)
    (h : meshLoaded = false ∨ st.colors = none ∨ ev.face = none) :
    Model1.handleClick pos meshLoaded ev st = st := by
  unfold Model1.handleClick
  rcases h with rfl | hc | hf
  · rfl
  · rw [hc]
    cases meshLoaded <;> rfl
  · rw [hf]
    cases meshLoaded with
    | false => rfl
    | true => cases st.colors <;> rfl

/-- C9 witness: a concrete miss event on a loaded mesh with installed colors
leaves the concrete state unchanged. -/
theorem invalid_pick_noop_witness :
    Model1.handleClick [] true ⟨none⟩
        ⟨some [], some 0, none, []⟩ = ⟨some [], some 0, none, []⟩ :=
  invalid_pick_noop [] true ⟨none⟩ ⟨some [], some 0, none, []⟩
    (Or.inr (Or.inr rfl))

/-- C3: whenever `detectShape` classifies a vertex set as `circle`, the
reported radius is half the maximum pairwise vertex distance, the reported
perimeter is the circumference `2π·radius`, and the reported area is
`π·radius²` (overriding fan area and summed pairwise perimeter). -/
theorem circle_override (vs : List Point) (n : Point)
    (h : (Model0.detectShape vs n).type = ShapeType.circle) :
    (Model0.detectShape vs n).dimensions.radius =
      some (Model0.pairwiseMaxDist vs / 2) ∧
    (Model0.detectShape vs n).dimensions.perimeter =
      some (2 * Real.pi * (Model0.pairwiseMaxDist vs / 2)) ∧
    (Model0.detectShape vs n).dimensions.area =
      some (Real.pi * (Model0.pairwiseMaxDist vs / 2) ^ 2) := by
  cases hac : Model0.analyzeCircularity vs with
  | none =>
    exfalso
    unfold Model0.detectShape at h
    rw [hac] at h
    split_ifs at h
  | some cd =>
    have hcd : cd = Model0.CircleData.mk (circCenter vs) (Model0.pairwiseMaxDist vs / 2)
        (Model0.pairwiseMaxDist vs) (2 * Real.pi * (Model0.pairwiseMaxDist vs / 2)) := by
      unfold Model0.analyzeCircularity at hac
      split_ifs at hac
      exact (Option.some_inj.mp hac).symm
    unfold Model0.detectShape
    rw [hac, hcd]
    exact ⟨rfl, rfl, rfl⟩

theorem sqrt_25 : Real.sqrt 25 = 5 := by
  rw [show (25 : ℝ) = 5 ^ 2 from by norm_num]
  exact Real.sqrt_sq (by norm_num)

theorem octagon_center : circCenter octagonVerts = ⟨0, 0, 0⟩ := by
  unfold circCenter octagonVerts
  simp only [List.foldl, Point.add, Point.zero, Point.divideScalar, List.length]
  norm_num [Point.ext_iff]

theorem octagon_distances :
    circDistances octagonVerts = [5, 5, 5, 5, 5, 5, 5, 5] := by
  unfold circDistances
  rw [octagon_center]
  unfold octagonVerts
  simp only [List.map, Point.distanceTo, Point.sub, Point.length, Point.lengthSq]
  norm_num [sqrt_25]

theorem octagon_avg : circAvg octagonVerts = 5 := by
  unfold circAvg
  rw [octagon_distances]
  norm_num [List.foldl]

theorem octagon_variance : circVariance octagonVerts = 0 := by
  unfold circVariance
  rw [octagon_distances, octagon_avg]
  norm_num [List.foldl]

theorem octagon_circle_type :
    (Model0.detectShape octagonVerts ⟨0, 0, 1⟩).type = ShapeType.circle := by
  unfold Model0.detectShape
  have hac : Model0.analyzeCircularity octagonVerts =
      some (Model0.CircleData.mk (circCenter octagonVerts)
        (Model0.pairwiseMaxDist octagonVerts / 2) (Model0.pairwiseMaxDist octagonVerts)
        (2 * Real.pi * (Model0.pairwiseMaxDist octagonVerts / 2))) := by
    unfold Model0.analyzeCircularity
    rw [if_neg, if_pos]
    · rw [octagon_variance, octagon_avg]
      norm_num
    · norm_num [octagonVerts]
  rw [hac]

/-- C3 witness: the eight-point rational circle is classified `circle` and
the override equalities hold there. -/
theorem circle_override_witness :
    (Model0.detectShape octagonVerts ⟨0, 0, 1⟩).type = ShapeType.circle ∧
    ((Model0.detectShape octagonVerts ⟨0, 0, 1⟩).dimensions.radius =
      some (Model0.pairwiseMaxDist octagonVerts / 2) ∧
    (Model0.detectShape octagonVerts ⟨0, 0, 1⟩).dimensions.perimeter =
      some (2 * Real.pi * (Model0.pairwiseMaxDist octagonVerts / 2)) ∧
    (Model0.detectShape octagonVerts ⟨0, 0, 1⟩).dimensions.area =
      some (Real.pi * (Model0.pairwiseMaxDist octagonVerts / 2) ^ 2)) :=
  ⟨octagon_circle_type, circle_override octagonVerts ⟨0, 0, 1⟩ octagon_circle_type⟩

theorem sqrt_100 : Real.sqrt 100 = 10 := by
  rw [show (100 : ℝ) = 10 ^ 2 from by norm_num]
  exact Real.sqrt_sq (by norm_num)

theorem sqrt_400 : Real.sqrt 400 = 20 := by
  rw [show (400 : ℝ) = 20 ^ 2 from by norm_num]
  exact Real.sqrt_sq (by norm_num)

theorem sqrt_40000 : Real.sqrt 40000 = 200 := by
  rw [show (40000 : ℝ) = 200 ^ 2 from by norm_num]
  exact Real.sqrt_sq (by norm_num)

theorem rectVerts_nodup : rectVerts.Nodup := by
  norm_num [rectVerts, List.nodup_cons, Point.ext_iff]

theorem rectVerts_edges_length : (Model1.findEdges rectVerts).length = 6 := by
  rw [findEdges_eq_pairs rectVerts_nodup]
  rfl

/-- C1 counterexample: the 10×20 axis-aligned rectangle's four vertices are
not classified `rectangle` by the pipeline (the pairwise extractor returns 6
edges, failing the 4-edge requirement). -/
theorem rectangle_scenario_counterexample :
    (Model1.measureFace rectVerts).type ≠ ShapeType.rectangle := by
  rw [measureFace_type_eq,
    determineShapeType_complex (Or.inr (by rw [rectVerts_edges_length]; norm_num))
      (by norm_num [rectVerts])]
  decide

/-- C1 (amended): on the 10×20 rectangle's vertices in perimeter order the
pipeline returns classification `complex`, area 200, and perimeter
`60 + 2·√500` (the pairwise edge set includes the two diagonals); no
width/height fields exist in `MeasurementData`. -/
theorem rectangle_scenario_amended :
    (Model1.measureFace rectVerts).type = ShapeType.complex ∧
    (Model1.measureFace rectVerts).area = 200 ∧
    (Model1.measureFace rectVerts).perimeter = 60 + 2 * Real.sqrt 500 := by
  refine ⟨?_, ?_, ?_⟩
  · rw [measureFace_type_eq]
    exact determineShapeType_complex
      (Or.inr (by rw [rectVerts_edges_length]; norm_num)) (by norm_num [rectVerts])
  · rw [measureFace_area_eq]
    unfold Model1.calculateArea rectVerts
    rw [if_neg (by norm_num)]
    simp only [Model1.fanSum, Model1.getArea, Point.sub, Point.cross, Point.length,
      Point.lengthSq]
    norm_num [sqrt_40000]
  · rw [measureFace_perimeter_eq, measureFace_edges_eq,
      findEdges_eq_pairs rectVerts_nodup]
    unfold rectVerts pairsInOrder
    simp only [List.map, List.append, List.enum, List.enumFrom, List.foldl,
      Point.distanceTo, Point.sub, Point.length, Point.lengthSq]
    norm_num [sqrt_100, sqrt_400]
    ring

/-- Closed-form evaluation of a vertex distance from a square witness. -/
theorem distanceTo_eval (p q : Point) (d : ℝ) (hd : 0 ≤ d)
    (h : (p.x - q.x) * (p.x - q.x) + (p.y - q.y) * (p.y - q.y) +
      (p.z - q.z) * (p.z - q.z) = d * d) :
    p.distanceTo q = d := by
  unfold Point.distanceTo Point.sub Point.length Point.lengthSq
  dsimp
  rw [h]
  exact Real.sqrt_mul_self hd

theorem determineShapeType_circle_of {vs : List Point} {es : List (Point × Point)}
    (h4 : vs.length ≠ 4) (hc : Model1.isCircular vs) :
    Model1.determineShapeType vs es = ShapeType.circle := by
  unfold Model1.determineShapeType
  rw [if_neg (fun hr => h4 hr.1), if_pos hc]

theorem determineShapeType_complex2 {vs : List Point} {es : List (Point × Point)}
    (h4 : vs.length ≠ 4) (hnc : ¬ Model1.isCircular vs) :
    Model1.determineShapeType vs es = ShapeType.complex := by
  unfold Model1.determineShapeType
  rw [if_neg (fun hr => h4 hr.1), if_neg hnc]

theorem nearCircle_center : circCenter nearCircleVerts = ⟨0, 0, 0⟩ := by
  unfold circCenter nearCircleVerts
  simp only [List.foldl, Point.add, Point.zero, Point.divideScalar, List.length]
  norm_num [Point.ext_iff]

theorem nearCircle_distances :
    circDistances nearCircleVerts = [5, 5, 5.05, 5.05, 5, 5, 5, 5] := by
  unfold circDistances
  rw [nearCircle_center]
  unfold nearCircleVerts
  simp only [List.map]
  rw [distanceTo_eval _ _ 5 (by norm_num) (by norm_num),
    distanceTo_eval _ _ 5 (by norm_num) (by norm_num),
    distanceTo_eval _ _ 5.05 (by norm_num) (by norm_num),
    distanceTo_eval _ _ 5.05 (by norm_num) (by norm_num),
    distanceTo_eval _ _ 5 (by norm_num) (by norm_num),
    distanceTo_eval _ _ 5 (by norm_num) (by norm_num),
    distanceTo_eval _ _ 5 (by norm_num) (by norm_num),
    distanceTo_eval _ _ 5 (by norm_num) (by norm_num)]

theorem nearCircle_avg : circAvg nearCircleVerts = 5.0125 := by
  unfold circAvg
  rw [nearCircle_distances]
  norm_num [List.foldl]

theorem nearCircle_variance : circVariance nearCircleVerts = 0.00046875 := by
  unfold circVariance
  rw [nearCircle_distances, nearCircle_avg]
  norm_num [List.foldl]

theorem nearCircle_circular : Model1.isCircular nearCircleVerts := by
  constructor
  · norm_num [nearCircleVerts]
  · rw [nearCircle_variance, nearCircle_avg]
    norm_num

theorem nearCircle_scaled :
    nearCircleVerts.map (scalePt 200) =
      [⟨1000, 0, 0⟩, ⟨-1000, 0, 0⟩, ⟨0, 1010, 0⟩, ⟨0, -1010, 0⟩,
       ⟨600, 800, 0⟩, ⟨600, -800, 0⟩, ⟨-600, 800, 0⟩, ⟨-600, -800, 0⟩] := by
  unfold nearCircleVerts scalePt
  simp only [List.map]
  norm_num [Point.ext_iff]

theorem nearCircle_scaled_center :
    circCenter (nearCircleVerts.map (scalePt 200)) = ⟨0, 0, 0⟩ := by
  rw [nearCircle_scaled]
  unfold circCenter
  simp only [List.foldl, Point.add, Point.zero, Point.divideScalar, List.length]
  norm_num [Point.ext_iff]

theorem nearCircle_scaled_distances :
    circDistances (nearCircleVerts.map (scalePt 200)) =
      [1000, 1000, 1010, 1010, 1000, 1000, 1000, 1000] := by
  unfold circDistances
  rw [nearCircle_scaled_center, nearCircle_scaled]
  simp only [List.map]
  rw [distanceTo_eval _ _ 1000 (by norm_num) (by norm_num),
    distanceTo_eval _ _ 1000 (by norm_num) (by norm_num),
    distanceTo_eval _ _ 1010 (by norm_num) (by norm_num),
    distanceTo_eval _ _ 1010 (by norm_num) (by norm_num),
    distanceTo_eval _ _ 1000 (by norm_num) (by norm_num),
    distanceTo_eval _ _ 1000 (by norm_num) (by norm_num),
    distanceTo_eval _ _ 1000 (by norm_num) (by norm_num),
    distanceTo_eval _ _ 1000 (by norm_num) (by norm_num)]

theorem nearCircle_scaled_avg :
    circAvg (nearCircleVerts.map (scalePt 200)) = 1002.5 := by
  unfold circAvg
  rw [nearCircle_scaled_distances]
  norm_num [List.foldl]

theorem nearCircle_scaled_variance :
    circVariance (nearCircleVerts.map (scalePt 200)) = 18.75 := by
  unfold circVariance
  rw [nearCircle_scaled_distances, nearCircle_scaled_avg]
  norm_num [List.foldl]

theorem nearCircle_scaled_not_circular :
    ¬ Model1.isCircular (nearCircleVerts.map (scalePt 200)) := by
  intro hc
  have h := hc.2
  rw [nearCircle_scaled_variance, nearCircle_scaled_avg] at h
  norm_num at h

/-- C5 counterexample: the eight near-circular vertices are classified
`circle`, but after uniform scaling by 200 the same shape is classified
`complex` — the variance test `variance < 0.01·avgRadius` compares a
k²-scaled quantity against a k-scaled threshold. -/
theorem scale_classification_counterexample :
    (Model1.measureFace nearCircleVerts).type = ShapeType.circle ∧
    (Model1.measureFace (nearCircleVerts.map (scalePt 200))).type ≠
      ShapeType.circle := by
  constructor
  · rw [measureFace_type_eq]
    exact determineShapeType_circle_of (by norm_num [nearCircleVerts])
      nearCircle_circular
  · rw [measureFace_type_eq,
      determineShapeType_complex2 (by rw [nearCircle_scaled]; norm_num)
        nearCircle_scaled_not_circular]
    decide

/-- C5 (amended): for every vertex list and factor k > 0, uniform scaling
multiplies the computed area by k² and the perimeter, maxLength, minLength
and every reported edge length by k.  (Classification is not preserved in
general; see the counterexample.) -/
theorem scale_metrics (vs : List Point) (k : ℝ) (hk : 0 < k) :
    (Model1.measureFace (vs.map (scalePt k))).area =
      k ^ 2 * (Model1.measureFace vs).area ∧
    (Model1.measureFace (vs.map (scalePt k))).perimeter =
      k * (Model1.measureFace vs).perimeter ∧
    (Model1.measureFace (vs.map (scalePt k))).maxLength =
      (k : EReal) * (Model1.measureFace vs).maxLength ∧
    (Model1.measureFace (vs.map (scalePt k))).minLength =
      (k : EReal) * (Model1.measureFace vs).minLength ∧
    (Model1.measureFace (vs.map (scalePt k))).edgeLengths.map Model1.EdgeInfo.length =
      (Model1.measureFace vs).edgeLengths.map (fun e => k * e.length) := by
  have hL := measureFace_edgeLengths_scale hk vs
  refine ⟨?_, ?_, ?_, ?_, ?_⟩
  · rw [measureFace_area_eq, measureFace_area_eq]
    exact calculateArea_scale k vs
  · rw [measureFace_perimeter_eq, measureFace_perimeter_eq, hL]
    have h := foldl_add_scale k
      ((Model1.measureFace vs).edgeLengths.map Model1.EdgeInfo.length) 0
    rw [mul_zero] at h
    exact h
  · rw [measureFace_maxLength_eq, measureFace_maxLength_eq, hL, jsMax_map_scale hk]
  · rw [measureFace_minLength_eq, measureFace_minLength_eq, hL, jsMin_map_scale hk]
  · rw [hL, List.map_map]
    rfl

/-- C5 witness: scaling the unit segment by k = 2 satisfies the positivity
hypothesis and the scaling equalities. -/
theorem scale_metrics_witness :
    (0 : ℝ) < 2 ∧
    ((Model1.measureFace (([⟨0, 0, 0⟩, ⟨1, 0, 0⟩] : List Point).map (scalePt 2))).area =
      2 ^ 2 * (Model1.measureFace [⟨0, 0, 0⟩, ⟨1, 0, 0⟩]).area ∧
    (Model1.measureFace (([⟨0, 0, 0⟩, ⟨1, 0, 0⟩] : List Point).map (scalePt 2))).perimeter =
      2 * (Model1.measureFace [⟨0, 0, 0⟩, ⟨1, 0, 0⟩]).perimeter ∧
    (Model1.measureFace (([⟨0, 0, 0⟩, ⟨1, 0, 0⟩] : List Point).map (scalePt 2))).maxLength =
      ((2 : ℝ) : EReal) * (Model1.measureFace [⟨0, 0, 0⟩, ⟨1, 0, 0⟩]).maxLength ∧
    (Model1.measureFace (([⟨0, 0, 0⟩, ⟨1, 0, 0⟩] : List Point).map (scalePt 2))).minLength =
      ((2 : ℝ) : EReal) * (Model1.measureFace [⟨0, 0, 0⟩, ⟨1, 0, 0⟩]).minLength ∧
    (Model1.measureFace (([⟨0, 0, 0⟩, ⟨1, 0, 0⟩] : List Point).map
        (scalePt 2))).edgeLengths.map Model1.EdgeInfo.length =
      (Model1.measureFace [⟨0, 0, 0⟩, ⟨1, 0, 0⟩]).edgeLengths.map
        (fun e => 2 * e.length)) :=
  ⟨by norm_num, scale_metrics [⟨0, 0, 0⟩, ⟨1, 0, 0⟩] 2 (by norm_num)⟩
